import Mathlib

/-!
Shallow embedding of `src/main.py` of the screens-sync repository: a small
sync worker that stores job records in SQLite, enforces single-flight
admission of sync jobs, supervises an rclone child process, and reconciles
orphaned jobs at startup.  Each Lean definition mirrors one Python function
or SQL statement; timestamps produced by datetime.now() are threaded in as
explicit string parameters.
-/

namespace ScreensSync

/-- Job status values stored in the `status` column of the `jobs` table. -/
inductive JobStatus where
  | RUNNING
  | COMPLETED
  | FAILED
  | CANCELLED
deriving DecidableEq, Repr

/-- A status is terminal when it is one of COMPLETED, FAILED, CANCELLED,
matching the list tested in `log_job_update`. -/
def JobStatus.isTerminal : JobStatus → Bool
  | .RUNNING => false
  | _ => true

/-- One row of the `jobs` table (`id` PRIMARY KEY AUTOINCREMENT,
`start_time`, `end_time`, `status`, `logs`).  `end_time` is NULL until a
terminal transition, modelled as `Option`. -/
structure JobRecord where
  id : Nat
  start_time : String
  end_time : Option String
  status : JobStatus
  logs : String
deriving DecidableEq, Repr

/-- The SQLite database: rows in rowid (insertion) order, plus the next
AUTOINCREMENT id.  DELETE does not reset the sequence. -/
structure DB where
  jobs : List JobRecord
  nextId : Nat
deriving DecidableEq, Repr

/-- The whole process state: the database plus the module-global
`active_process` handle (None when no supervised child is held); the handle
is abstracted to the child's pid. -/
structure AppState where
  db : DB
  active_process : Option Nat
deriving DecidableEq, Repr

/-- Default of `os.getenv("DROPBOX_SOURCE_PATH", "dropbox:sessions")`. -/
def SOURCE_REMOTE : String := "dropbox:sessions"

/-- Default of `os.getenv("WASABI_DEST_PATH", "wasabi:systemconcepts-sessions")`. -/
def DEST_REMOTE : String := "wasabi:systemconcepts-sessions"

/-- The graceful termination signal sent by `cancel_sync`
(`signal.SIGTERM`, number 15; a child killed by signal n has Popen
returncode -n). -/
def SIGTERM : Int := 15

/-- Embedding of `init_db`: the UPDATE statement force-fails every row
still RUNNING, appending the restart line to `logs` and setting
`end_time`; other rows are untouched.  `now` is
`datetime.now().strftime(time-of-day)` and `iso` is
`datetime.now().isoformat()`. -/
def init_db (now iso : String) (db : DB) : DB :=
  { db with jobs := db.jobs.map (fun r =>
      if r.status = .RUNNING then
        { r with
            status := .FAILED,
            logs := r.logs ++ "\n" ++ now ++ ": [SYSTEM] Sync was interrupted by a server restart.",
            end_time := some iso }
      else r) }

/-- Embedding of `log_job_start`: INSERT a new row with status RUNNING, the
banner log line, NULL `end_time`; returns `lastrowid` and the new database. -/
def log_job_start (startIso : String) (db : DB) : Nat × DB :=
  let initial_log := "🚀 Job Started: " ++ SOURCE_REMOTE ++ " -> " ++ DEST_REMOTE ++ "\n"
  let record : JobRecord :=
    { id := db.nextId, start_time := startIso, end_time := none,
      status := .RUNNING, logs := initial_log }
  (db.nextId, { jobs := db.jobs ++ [record], nextId := db.nextId + 1 })

/-- Python truthiness of the `new_log_line` argument of `log_job_update`:
the log fragment is collected only when the line is present and non-empty. -/
def logTruthy (new_log_line : Option String) : Bool :=
  match new_log_line with
  | some s => !(s == "")
  | none => false

/-- The `logs = logs || ?` fragment of `log_job_update`, applied to one
row: appends the timestamped line when it is truthy. -/
def applyLogFragment (now : String) (new_log_line : Option String)
    (r : JobRecord) : JobRecord :=
  if logTruthy new_log_line then
    { r with logs := r.logs ++ now ++ ": " ++ new_log_line.getD "" ++ "\n" }
  else r

/-- The `status = ?` fragment of `log_job_update`, applied to one row:
sets the status, and sets `end_time` too when the new status is in
['COMPLETED', 'FAILED', 'CANCELLED']. -/
def applyStatusFragment (iso : String) (status : Option JobStatus)
    (r : JobRecord) : JobRecord :=
  match status with
  | some s =>
      if s = .COMPLETED ∨ s = .FAILED ∨ s = .CANCELLED then
        { r with status := s, end_time := some iso }
      else
        { r with status := s }
  | none => r

/-- Embedding of `log_job_update`: appends a timestamped log line when
`new_log_line` is truthy (present and non-empty), sets `status` when given,
and sets `end_time` alongside any terminal status.  The UPDATE hits every
row whose id matches; when no update fragment was collected no statement
runs. -/
def log_job_update (now iso : String) (job_id : Nat) (new_log_line : Option String)
    (status : Option JobStatus) (db : DB) : DB :=
  if logTruthy new_log_line || status.isSome then
    { db with jobs := db.jobs.map (fun r =>
        if r.id = job_id then
          applyStatusFragment iso status (applyLogFragment now new_log_line r)
        else r) }
  else db

/-- The exit-status mapping at the end of `run_rclone_sync`:
returncode 0 gives COMPLETED, a negative returncode (child terminated by a
signal) gives CANCELLED, any positive returncode gives FAILED. -/
def finalStatus (returncode : Int) : JobStatus :=
  if returncode = 0 then .COMPLETED
  else if returncode < 0 then .CANCELLED
  else .FAILED

/-- Modelled from the spec for comparison (refinement check of the
exit-status mapping, C2): exit code 0 gives COMPLETED, a
terminated-by-signal status matching the graceful termination signal used
by cancel() (SIGTERM, returncode -15) gives CANCELLED, any other non-zero
code gives FAILED. -/
def finalStatusSpec (returncode : Int) : JobStatus :=
  if returncode = 0 then .COMPLETED
  else if returncode = -SIGTERM then .CANCELLED
  else .FAILED

/-- The fixed rclone invocation built by `run_rclone_sync`. -/
def rcloneCmd (source dest : String) : List String :=
  ["rclone", "copy", source, dest,
   "--update", "--transfers", "4", "--verbose", "--stats", "2s",
   "--ignore-checksum", "--no-update-modtime", "--no-traverse"]

/-- The environment override passed to `subprocess.Popen` in
`run_rclone_sync`: the call supplies no `env` keyword, so the child simply
inherits the parent environment and nothing extra is injected. -/
def popenEnvOverride : Option (List (String × String)) := none

/-- One call to `log_job_update` issued by the supervision loop, recorded
as (job id, log line if any, status if any). -/
structure StoreCall where
  job_id : Nat
  new_log_line : Option String
  status : Option JobStatus
deriving DecidableEq, Repr

/-- Whether a store call writes a `status` value. -/
def StoreCall.setsStatus (c : StoreCall) : Bool :=
  c.status.isSome

/-- The sequence of store calls `run_rclone_sync` issues on the normal
path, given the lines read from the child's combined output stream and its
returncode: one log-only call per streamed line (stripped first), then —
only after the stream has closed and `wait()` returned — a single final
call carrying the exit-code line together with the terminal status. -/
def runCalls (job_id : Nat) (lines : List String) (returncode : Int) : List StoreCall :=
  lines.map (fun l => { job_id := job_id, new_log_line := some l.trim, status := none }) ++
    [{ job_id := job_id,
       new_log_line := some ("Exit code: " ++ toString returncode),
       status := some (finalStatus returncode) }]

/-- The store call issued by the exception handler of `run_rclone_sync`
when the child could not even be spawned. -/
def spawnFailureCall (job_id : Nat) (msg : String) : StoreCall :=
  { job_id := job_id, new_log_line := some ("CRITICAL ERROR: " ++ msg),
    status := some .FAILED }

/-- Result value of the `/sync` endpoint. -/
inductive SyncResult where
  | started (job_id : Nat)
  | ignored (job_id : Nat)
deriving DecidableEq, Repr

/-- What `trigger_sync` hands to the background task: `run_rclone_sync`
receives only the job id; no credential is passed and no environment
override accompanies the spawn (see `popenEnvOverride`). -/
structure SpawnTask where
  job_id : Nat
  credentialEnv : Option String
deriving DecidableEq, Repr

/-- Embedding of `trigger_sync`: SELECT the first row with status RUNNING
(rowid order); if found, answer `ignored` with that row's id and change
nothing; otherwise insert a fresh RUNNING record and schedule
`run_rclone_sync job_id` as a background task.  `suppliedCredential`
stands for any per-invocation credential the caller may include in the
request; the endpoint's signature has no such parameter, so the body never
reads it. -/
def trigger_sync (suppliedCredential : Option String) (now : String) (st : AppState) :
    SyncResult × AppState × Option SpawnTask :=
  match st.db.jobs.find? (fun r => r.status == .RUNNING) with
  | some active => (.ignored active.id, st, none)
  | none =>
      let (job_id, db2) := log_job_start now st.db
      (.started job_id, { st with db := db2 },
        some { job_id := job_id, credentialEnv := none })

/-- Result value of the `/cancel` endpoint. -/
inductive CancelResult where
  | success
  | ignored
  | error (msg : String)
deriving DecidableEq, Repr

/-- Embedding of `cancel_sync`: with no `active_process` handle it answers
`ignored` touching nothing; otherwise it sends SIGTERM to the child's
process group (the third component records the signal sent) and answers
`success`.  The `os.killpg` failure branch only changes the response
message and also performs no store mutation. -/
def cancel_sync (st : AppState) : CancelResult × AppState × Option Int :=
  match st.active_process with
  | none => (.ignored, st, none)
  | some _ => (.success, st, some SIGTERM)

/-- Response of the `/status` endpoint. -/
inductive StatusResponse where
  | idle
  | single (r : JobRecord)
  | history (rs : List JobRecord)
deriving DecidableEq, Repr

/-- ORDER BY id DESC of the SQL queries in `get_status`. -/
def sortByIdDesc (jobs : List JobRecord) : List JobRecord :=
  List.insertionSort (fun a b => b.id ≤ a.id) jobs

/-- Embedding of `get_status`: with the history flag, the 20 first rows of
ORDER BY id DESC; without it, the single first row of that order, or the
IDLE sentinel when the table is empty. -/
def get_status (history : Bool) (db : DB) : StatusResponse :=
  if history then .history ((sortByIdDesc db.jobs).take 20)
  else
    match (sortByIdDesc db.jobs).head? with
    | some j => .single j
    | none => .idle

/-- Result value of the `/clear-history` endpoint. -/
inductive ClearResult where
  | success
  | error (msg : String)
deriving DecidableEq, Repr

/-- Embedding of `clear_history`: DELETE FROM jobs removes every row; the
AUTOINCREMENT sequence and the `active_process` handle are untouched. -/
def clear_history (st : AppState) : ClearResult × AppState :=
  (.success, { st with db := { st.db with jobs := [] } })

/-- Outcome of the `verify_secret` dependency. -/
inductive AuthResult where
  | ok
  | unauthorized
deriving DecidableEq, Repr

/-- Embedding of `verify_secret`: the request is rejected with 401 exactly
when the `x-api-key` header value (None when absent) differs from
`API_SECRET` (None when the environment variable is unset). -/
def verify_secret (api_secret x_api_key : Option String) : AuthResult :=
  if x_api_key == api_secret then .ok else .unauthorized

/-- The end_time/status invariant of the job table: a row has `end_time`
set exactly when its status is terminal. -/
def endTimeInv (db : DB) : Prop :=
  ∀ r ∈ db.jobs, r.end_time.isSome = r.status.isTerminal

instance : DecidablePred endTimeInv := fun db =>
  inferInstanceAs (Decidable (∀ r ∈ db.jobs, r.end_time.isSome = r.status.isTerminal))

/-- A concrete state holding exactly one RUNNING record, used by witnesses. -/
def stRunning : AppState :=
  ⟨⟨[{ id := 1, start_time := "t0", end_time := none, status := .RUNNING, logs := "L" }], 2⟩,
   some 42⟩

/-- C10: the credential check accepts a request exactly when the supplied
header value equals the configured secret; with the secret unconfigured
(None) a request omitting the header (None) is accepted. -/
theorem verify_secret_characterization :
    ∀ api_secret x_api_key : Option String,
      (verify_secret api_secret x_api_key = .ok ↔ x_api_key = api_secret) ∧
      verify_secret none none = .ok := by
  intro s k
  refine ⟨?_, rfl⟩
  unfold verify_secret
  by_cases h : k = s
  · subst h
    simp
  · have hb : (k == s) = false := by
      simpa [beq_iff_eq] using h
    simp [hb, h]

/-- C8: when no active supervised process handle is held, cancel returns
the ignored result and leaves the whole state — in particular the job
store — unchanged, sending no signal. -/
theorem cancel_sync_no_active_ignored :
    ∀ st : AppState, st.active_process = none →
      cancel_sync st = (.ignored, st, none) := by
  intro st h
  unfold cancel_sync
  rw [h]

/-- Witness for `cancel_sync_no_active_ignored` at a concrete state with
one record and no process handle. -/
theorem cancel_sync_no_active_ignored_witness :
    cancel_sync ⟨⟨[], 5⟩, none⟩ = (.ignored, ⟨⟨[], 5⟩, none⟩, none) :=
  cancel_sync_no_active_ignored ⟨⟨[], 5⟩, none⟩ rfl

/-- C2 counterexample: a child terminated by SIGKILL has returncode -9;
the code records CANCELLED there, while the spec's mapping (CANCELLED only
for the SIGTERM-derived status, -15) would record FAILED. -/
theorem finalStatus_sigkill_counterexample :
    finalStatus (-9) = .CANCELLED ∧ finalStatusSpec (-9) = .FAILED ∧
      (-9 : Int) ≠ -SIGTERM := by
  refine ⟨rfl, ?_, by decide⟩
  unfold finalStatusSpec SIGTERM
  norm_num

/-- C2 amended: the terminal status is COMPLETED exactly on exit code 0,
CANCELLED exactly on a negative returncode (terminated by any signal, not
only SIGTERM), and FAILED exactly on a positive exit code. -/
theorem finalStatus_characterization :
    ∀ rc : Int,
      (finalStatus rc = .COMPLETED ↔ rc = 0) ∧
      (finalStatus rc = .CANCELLED ↔ rc < 0) ∧
      (finalStatus rc = .FAILED ↔ 0 < rc) := by
  intro rc
  refine ⟨?_, ?_, ?_⟩ <;> unfold finalStatus <;> split_ifs <;> simp_all <;> omega

/-- C6 counterexample: with an empty store, a start request carrying a
per-invocation credential is admitted, yet the task handed to the Process
Supervisor carries no credential and Popen gets no environment override:
the supplied credential is dropped, not injected. -/
theorem trigger_sync_credential_dropped :
    (trigger_sync (some "dropbox-bearer-token") "t1" ⟨⟨[], 1⟩, none⟩).1 = .started 1 ∧
    (trigger_sync (some "dropbox-bearer-token") "t1" ⟨⟨[], 1⟩, none⟩).2.2 =
      some { job_id := 1, credentialEnv := none } ∧
    popenEnvOverride = none :=
  ⟨rfl, rfl, rfl⟩

/-- C6 amended: start() hands only the record id to the Process
Supervisor; its behaviour is independent of any credential the caller
supplies, and any spawned task carries no credential for the child's
environment. -/
theorem trigger_sync_no_credential_injection :
    ∀ (cred : Option String) (now : String) (st : AppState),
      trigger_sync cred now st = trigger_sync none now st ∧
      ∀ task, (trigger_sync cred now st).2.2 = some task →
        task.credentialEnv = none := by
  intro cred now st
  refine ⟨rfl, ?_⟩
  intro task h
  unfold trigger_sync at h
  split at h
  · simp at h
  · simp [log_job_start] at h
    rw [← h]

/-- Witness for `trigger_sync_no_credential_injection` on an empty store
with a supplied credential. -/
theorem trigger_sync_no_credential_injection_witness :
    trigger_sync (some "tok") "t1" ⟨⟨[], 1⟩, none⟩ =
      trigger_sync none "t1" ⟨⟨[], 1⟩, none⟩ ∧
    SpawnTask.credentialEnv { job_id := 1, credentialEnv := none } = none :=
  ⟨(trigger_sync_no_credential_injection (some "tok") "t1" ⟨⟨[], 1⟩, none⟩).1,
   (trigger_sync_no_credential_injection (some "tok") "t1" ⟨⟨[], 1⟩, none⟩).2
     { job_id := 1, credentialEnv := none } rfl⟩

/-- C1: whenever the store holds a RUNNING record, start returns the
ignored result carrying the id of a RUNNING record, leaves the state
unchanged (no insertion) and schedules no background task. -/
theorem trigger_sync_running_ignored :
    ∀ (cred : Option String) (now : String) (st : AppState),
      (∃ r ∈ st.db.jobs, r.status = .RUNNING) →
      ∃ r ∈ st.db.jobs, r.status = .RUNNING ∧
        trigger_sync cred now st = (.ignored r.id, st, none) := by
  intro cred now st hex
  cases hf : st.db.jobs.find? (fun r => r.status == .RUNNING) with
  | none =>
      obtain ⟨r, hr, hrs⟩ := hex
      have hnone := List.find?_eq_none.mp hf r hr
      simp [beq_iff_eq] at hnone
      exact absurd hrs hnone
  | some a =>
      refine ⟨a, List.mem_of_find?_eq_some hf, ?_, ?_⟩
      · simpa [beq_iff_eq] using List.find?_some hf
      · unfold trigger_sync
        rw [hf]

/-- Witness for `trigger_sync_running_ignored` at a concrete single-record
state. -/
theorem trigger_sync_running_ignored_witness :
    trigger_sync none "t1" stRunning = (.ignored 1, stRunning, none) := by
  obtain ⟨r, hr, hs, heq⟩ :=
    trigger_sync_running_ignored none "t1" stRunning (by decide)
  have hr1 : r.id = 1 := by
    simp only [stRunning, List.mem_singleton] at hr
    rw [hr]
  rw [hr1] at heq
  exact heq

/-- C9: clear-history deletes every record — even while a supervised
process is still alive (the handle survives) — and the next start then
passes the admission check and is admitted with a fresh RUNNING record. -/
theorem clear_history_defeats_single_flight :
    ∀ (st : AppState) (pid : Nat) (cred : Option String) (now : String),
      st.active_process = some pid →
      ((clear_history st).2.db.jobs = [] ∧
       (clear_history st).2.active_process = some pid) ∧
      trigger_sync cred now (clear_history st).2 =
        (.started st.db.nextId,
         ⟨⟨[{ id := st.db.nextId, start_time := now, end_time := none,
              status := .RUNNING,
              logs := "🚀 Job Started: " ++ SOURCE_REMOTE ++ " -> " ++ DEST_REMOTE ++ "\n" }],
           st.db.nextId + 1⟩, some pid⟩,
         some { job_id := st.db.nextId, credentialEnv := none }) := by
  intro st pid cred now hpid
  obtain ⟨⟨jobs, nextId⟩, ap⟩ := st
  simp only [AppState.active_process] at hpid
  subst hpid
  exact ⟨⟨rfl, rfl⟩, rfl⟩

/-- Witness for `clear_history_defeats_single_flight`: a state with a
RUNNING record and a live process handle. -/
theorem clear_history_defeats_single_flight_witness :
    ((clear_history stRunning).2.db.jobs = [] ∧
     (clear_history stRunning).2.active_process = some 42) ∧
    trigger_sync none "t9" (clear_history stRunning).2 =
      (.started 2,
       ⟨⟨[{ id := 2, start_time := "t9", end_time := none, status := .RUNNING,
            logs := "🚀 Job Started: " ++ SOURCE_REMOTE ++ " -> " ++ DEST_REMOTE ++ "\n" }],
         3⟩, some 42⟩,
       some { job_id := 2, credentialEnv := none }) :=
  clear_history_defeats_single_flight stRunning 42 none "t9" rfl

/-- A concrete two-record store: one RUNNING row, one COMPLETED row. -/
def dbMixed : DB :=
  ⟨[{ id := 1, start_time := "a", end_time := none, status := .RUNNING, logs := "L1" },
    { id := 2, start_time := "b", end_time := some "e", status := .COMPLETED, logs := "L2" }],
   3⟩

/-- C3: startup reconciliation keeps the table's length, rewrites every
RUNNING row to FAILED with the restart line appended and end_time set, and
leaves every non-RUNNING row untouched. -/
theorem init_db_reconciliation :
    ∀ (now iso : String) (db : DB),
      (init_db now iso db).jobs.length = db.jobs.length ∧
      ∀ (i : Nat) (r : JobRecord), db.jobs[i]? = some r →
        (r.status = .RUNNING →
          (init_db now iso db).jobs[i]? =
            some { r with
                     status := .FAILED,
                     logs := r.logs ++ "\n" ++ now ++
                       ": [SYSTEM] Sync was interrupted by a server restart.",
                     end_time := some iso }) ∧
        (r.status ≠ .RUNNING → (init_db now iso db).jobs[i]? = some r) := by
  intro now iso db
  refine ⟨by simp [init_db], ?_⟩
  intro i r hr
  constructor
  · intro hrun
    simp [init_db, List.getElem?_map, hr, hrun]
  · intro hnrun
    simp [init_db, List.getElem?_map, hr, hnrun]

/-- Witness for `init_db_reconciliation` on `dbMixed`: the RUNNING row is
failed with the restart line and end_time, the COMPLETED row is unchanged. -/
theorem init_db_reconciliation_witness :
    (init_db "12:00:00" "iso1" dbMixed).jobs[0]? =
      some { id := 1, start_time := "a", end_time := some "iso1", status := .FAILED,
             logs := "L1" ++ "\n" ++ "12:00:00" ++
               ": [SYSTEM] Sync was interrupted by a server restart." } ∧
    (init_db "12:00:00" "iso1" dbMixed).jobs[1]? =
      some { id := 2, start_time := "b", end_time := some "e", status := .COMPLETED,
             logs := "L2" } := by
  have h := init_db_reconciliation "12:00:00" "iso1" dbMixed
  exact ⟨(h.2 0 _ rfl).1 rfl, (h.2 1 _ rfl).2 (by decide)⟩

/-- C4: in the supervision loop's sequence of store calls, the unique call
that writes a status is the final one — issued only after every streamed
line's append call — and the status it writes is terminal; so the log is
complete before the status turns terminal. -/
theorem runCalls_status_last :
    ∀ (job_id : Nat) (lines : List String) (rc : Int),
      (runCalls job_id lines rc).length = lines.length + 1 ∧
      (runCalls job_id lines rc).getLast? =
        some { job_id := job_id,
               new_log_line := some ("Exit code: " ++ toString rc),
               status := some (finalStatus rc) } ∧
      (finalStatus rc).isTerminal = true ∧
      ∀ (i : Nat) (c : StoreCall), (runCalls job_id lines rc)[i]? = some c →
        c.setsStatus = true → i = lines.length := by
  intro job_id lines rc
  refine ⟨by simp [runCalls], ?_, ?_, ?_⟩
  · unfold runCalls
    exact List.getLast?_concat _
  · unfold finalStatus
    split_ifs <;> rfl
  · intro i c hc hs
    by_cases hi : i < lines.length
    · rw [runCalls, List.getElem?_append_left (by simpa using hi),
        List.getElem?_map] at hc
      cases hl : lines[i]? with
      | none => rw [hl] at hc; simp at hc
      | some s =>
          rw [hl] at hc
          simp only [Option.map_some'] at hc
          cases Option.some.inj hc
          simp [StoreCall.setsStatus] at hs
    · have hlt : i < (runCalls job_id lines rc).length := by
        by_contra hge
        rw [List.getElem?_eq_none (Nat.le_of_not_lt hge)] at hc
        exact Option.noConfusion hc
      have hlen : (runCalls job_id lines rc).length = lines.length + 1 := by
        simp [runCalls]
      omega

/-- Witness for `runCalls_status_last` with one streamed line and exit
code 0: the status-writing call sits at the final index 1. -/
theorem runCalls_status_last_witness :
    (runCalls 7 ["copied"] 0).getLast? =
      some { job_id := 7, new_log_line := some "Exit code: 0",
             status := some .COMPLETED } ∧
    (1 : Nat) = ["copied"].length := by
  have h := runCalls_status_last 7 ["copied"] 0
  refine ⟨?_, ?_⟩
  · have := h.2.1
    simpa using this
  · exact h.2.2.2 1
      { job_id := 7, new_log_line := some ("Exit code: " ++ toString (0 : Int)),
        status := some (finalStatus 0) } rfl rfl

/-- Appending a log line to a row changes neither its end_time nor its
status. -/
theorem applyLogFragment_preserves (now : String) (line : Option String)
    (r : JobRecord) :
    (applyLogFragment now line r).end_time = r.end_time ∧
    (applyLogFragment now line r).status = r.status := by
  unfold applyLogFragment
  split <;> exact ⟨rfl, rfl⟩

/-- The status fragment keeps the end_time-iff-terminal property of a row
whenever the status it writes (if any) is terminal. -/
theorem applyStatusFragment_preserves (iso : String) (st : Option JobStatus)
    (hterm : ∀ s, st = some s → s.isTerminal = true) (r : JobRecord)
    (hr : r.end_time.isSome = r.status.isTerminal) :
    (applyStatusFragment iso st r).end_time.isSome =
      (applyStatusFragment iso st r).status.isTerminal := by
  cases st with
  | none => exact hr
  | some s =>
      have hs := hterm s rfl
      have hcases : s = .COMPLETED ∨ s = .FAILED ∨ s = .CANCELLED := by
        cases s <;> simp_all [JobStatus.isTerminal]
      unfold applyStatusFragment
      simp only [if_pos hcases]
      simp [hs]

/-- C5: the end_time-iff-terminal invariant (RUNNING rows have no
end_time, terminal rows have one) is preserved by record creation, by
startup reconciliation, and by any log/status update whose status
argument, when present, is terminal — which is what every call site
passes. -/
theorem endTime_inv_preserved :
    ∀ (db : DB) (now iso startIso : String) (job_id : Nat)
      (line : Option String) (st : Option JobStatus),
      endTimeInv db →
      endTimeInv (log_job_start startIso db).2 ∧
      endTimeInv (init_db now iso db) ∧
      ((∀ s, st = some s → s.isTerminal = true) →
        endTimeInv (log_job_update now iso job_id line st db)) := by
  intro db now iso startIso job_id line st hinv
  refine ⟨?_, ?_, ?_⟩
  · intro r hr
    simp only [log_job_start, List.mem_append, List.mem_singleton] at hr
    rcases hr with hr | hr
    · exact hinv r hr
    · subst hr
      rfl
  · intro r hr
    simp only [init_db, List.mem_map] at hr
    obtain ⟨r0, hr0, hmap⟩ := hr
    by_cases h0 : r0.status = .RUNNING
    · rw [if_pos h0] at hmap
      subst hmap
      rfl
    · rw [if_neg h0] at hmap
      subst hmap
      exact hinv r0 hr0
  · intro hterm r hr
    unfold log_job_update at hr
    split at hr
    · simp only [List.mem_map] at hr
      obtain ⟨r0, hr0, hmap⟩ := hr
      by_cases hid : r0.id = job_id
      · rw [if_pos hid] at hmap
        subst hmap
        have hlog := applyLogFragment_preserves now line r0
        have hinv0 : (applyLogFragment now line r0).end_time.isSome =
            (applyLogFragment now line r0).status.isTerminal := by
          rw [hlog.1, hlog.2]
          exact hinv r0 hr0
        exact applyStatusFragment_preserves iso st hterm _ hinv0
      · rw [if_neg hid] at hmap
        subst hmap
        exact hinv r0 hr0
    · exact hinv r hr

/-- Witness for `endTime_inv_preserved` on `dbMixed` with a terminal
status argument. -/
theorem endTime_inv_preserved_witness :
    endTimeInv (log_job_start "t2" dbMixed).2 ∧
    endTimeInv (init_db "n" "i" dbMixed) ∧
    endTimeInv (log_job_update "n" "i" 1 (some "line") (some .COMPLETED) dbMixed) := by
  have h := endTime_inv_preserved dbMixed "n" "i" "t2" 1 (some "line")
    (some .COMPLETED) (by decide)
  exact ⟨h.1, h.2.1, h.2.2 (by intro s hs; cases hs; rfl)⟩

instance instIsTotalIdGE : IsTotal JobRecord (fun a b => b.id ≤ a.id) :=
  ⟨fun a b => Or.symm (Nat.le_total a.id b.id)⟩

instance instIsTransIdGE : IsTrans JobRecord (fun a b => b.id ≤ a.id) :=
  ⟨fun _ _ _ hab hbc => Nat.le_trans hbc hab⟩

/-- ORDER BY id DESC yields a list sorted by descending id. -/
theorem sortByIdDesc_sorted (jobs : List JobRecord) :
    List.Sorted (fun a b => b.id ≤ a.id) (sortByIdDesc jobs) :=
  List.sorted_insertionSort _ jobs

/-- ORDER BY id DESC is a permutation of the table. -/
theorem sortByIdDesc_perm (jobs : List JobRecord) :
    List.Perm (sortByIdDesc jobs) jobs :=
  List.perm_insertionSort _ jobs

/-- A concrete table of 25 completed jobs with ids 1..25, for the history
scenario. -/
def db25 : DB :=
  ⟨(List.range 25).map (fun i =>
      { id := i + 1, start_time := "t", end_time := some "e",
        status := .COMPLETED, logs := "" }), 26⟩

/-- C7: without the history flag, status answers the IDLE sentinel on an
empty table and otherwise the record with the greatest id; with it, the at
most 20 records of greatest ids, ordered by id descending, all drawn from
the table, each with an id at least that of every record left out. -/
theorem get_status_spec :
    ∀ db : DB,
      ((db.jobs = [] → get_status false db = .idle) ∧
       (db.jobs ≠ [] → ∃ r, get_status false db = .single r) ∧
       (∀ r, get_status false db = .single r →
          r ∈ db.jobs ∧ ∀ r2 ∈ db.jobs, r2.id ≤ r.id)) ∧
      (∃ l, get_status true db = .history l ∧
        l.length = min 20 db.jobs.length ∧
        List.Sorted (fun a b => b.id ≤ a.id) l ∧
        (∀ r ∈ l, r ∈ db.jobs) ∧
        (∀ r ∈ l, ∀ r2 ∈ db.jobs, r2 ∉ l → r2.id ≤ r.id)) := by
  intro db
  have hs := sortByIdDesc_sorted db.jobs
  have hp := sortByIdDesc_perm db.jobs
  constructor
  · refine ⟨?_, ?_, ?_⟩
    · intro hnil
      unfold get_status sortByIdDesc
      rw [hnil]
      rfl
    · intro hne
      cases hsd : sortByIdDesc db.jobs with
      | nil =>
          rw [hsd] at hp
          exact absurd hp.symm.eq_nil hne
      | cons x xs =>
          refine ⟨x, ?_⟩
          unfold get_status
          rw [hsd]
          rfl
    · intro r hr
      unfold get_status at hr
      cases hsd : sortByIdDesc db.jobs with
      | nil => rw [hsd] at hr; simp at hr
      | cons x xs =>
          rw [hsd] at hr
          simp only [List.head?_cons, if_false, Bool.false_eq_true] at hr
          cases hr
          constructor
          · refine hp.subset ?_
            rw [hsd]
            exact List.mem_cons_self _ _
          · intro r2 hr2
            have hr2s : r2 ∈ sortByIdDesc db.jobs := hp.mem_iff.mpr hr2
            rw [hsd] at hr2s
            rcases List.mem_cons.mp hr2s with h | h
            · exact h ▸ Nat.le_refl _
            · have := hsd ▸ hs
              exact List.rel_of_sorted_cons this r2 h
  · refine ⟨(sortByIdDesc db.jobs).take 20, rfl, ?_, ?_, ?_, ?_⟩
    · rw [List.length_take, hp.length_eq]
    · exact List.Pairwise.sublist (List.take_sublist 20 _) hs
    · intro r hr
      exact hp.subset (List.mem_of_mem_take hr)
    · intro r hr r2 hr2 hnr2
      have hr2s : r2 ∈ sortByIdDesc db.jobs := hp.mem_iff.mpr hr2
      have hsplit := List.take_append_drop 20 (sortByIdDesc db.jobs)
      have hpair : List.Pairwise (fun a b => b.id ≤ a.id)
          ((sortByIdDesc db.jobs).take 20 ++ (sortByIdDesc db.jobs).drop 20) := by
        rw [hsplit]
        exact hs
      have hr2d : r2 ∈ (sortByIdDesc db.jobs).drop 20 := by
        rcases List.mem_append.mp (hsplit ▸ hr2s) with h | h
        · exact absurd h hnr2
        · exact h
      exact (List.pairwise_append.mp hpair).2.2 r hr r2 hr2d

/-- Witness for `get_status_spec` on the 25-record table: the latest query
is not IDLE and the history query returns exactly 20 records. -/
theorem get_status_spec_witness :
    get_status false db25 ≠ .idle ∧
    ∃ l, get_status true db25 = .history l ∧ l.length = 20 := by
  obtain ⟨⟨h0, h1, h2⟩, l, hl, hlen, hsor, hmem, hmax⟩ := get_status_spec db25
  constructor
  · obtain ⟨r, hr⟩ := h1 (by decide)
    rw [hr]
    intro hcontra
    exact StatusResponse.noConfusion hcontra
  · refine ⟨l, hl, ?_⟩
    have h25 : db25.jobs.length = 25 := by simp [db25]
    rw [hlen, h25]
    omega

end ScreensSync
